import Mathlib

/-!
Verification of the `repo_import` manifest discovery and extraction pipeline
(`src/repo_import/src/info.rs`) against its specification.

The Rust source is shallowly embedded: file system contents, TOML parse
results and the build-metadata provider's answers are explicit inputs; Rust
panics (`unwrap`, panicking `Index` on `toml::Value`) are modelled by a
dedicated outcome constructor.
-/

set_option autoImplicit false

namespace RepoImport

/-- Outcome of running a piece of Rust code that may return `Ok`, return
`Err`, or panic (`unwrap` / panicking index). -/
inductive RustResult (α : Type) where
  | panicked
  | error (msg : String)
  | ok (a : α)
  deriving DecidableEq, Repr

/-- Model of a parsed `toml::Value`: strings, integers and tables are the
shapes the pipeline inspects. -/
inductive Toml where
  | str (s : String)
  | int (n : Int)
  | table (kvs : List (String × Toml))
  deriving Repr

/-- `toml::Value::get`: key lookup on a table, `none` on non-tables and on
missing keys.  `toml::Value`'s panicking `Index` is `get` followed by
`expect`, which the callers below model with `RustResult.panicked`. -/
def Toml.get : Toml → String → Option Toml
  | .table kvs, k => kvs.lookup k
  | .str _, _ => none
  | .int _, _ => none

/-- `toml::Value::as_str`. -/
def Toml.asStr : Toml → Option String
  | .str s => some s
  | _ => none

/-- Modelled from the spec: the `model` crate's `Program` record (the crate
is outside this tree; the spec gives its shape: `id`, `name`, optional
`description`, optional `namespace`, optional `version`, and three
additional optional provenance fields whose names are not given). -/
structure Program where
  id : String
  name : String
  description : Option String
  «namespace» : Option String
  version : Option String
  extra1 : Option String
  extra2 : Option String
  extra3 : Option String
  deriving DecidableEq, Repr

/-- Modelled from the spec: `Program::new` stores its arguments in field
order, as used at the single call site in `from_cargo_toml`. -/
def Program.new (id name : String) (description ns version e1 e2 e3 : Option String) :
    Program :=
  ⟨id, name, description, ns, version, e1, e2, e3⟩

/-- Modelled from the spec: the `Library` variant payload: `id`, `name`, an
integer usage/reference counter, and an optional auxiliary field. -/
structure Library where
  id : String
  name : String
  counter : Int
  aux : Option String
  deriving DecidableEq, Repr

/-- Modelled from the spec: `Library::new` stores its arguments. -/
def Library.new (id name : String) (counter : Int) (aux : Option String) : Library :=
  ⟨id, name, counter, aux⟩

/-- Modelled from the spec: the `Application` variant payload: `id`, `name`. -/
structure Application where
  id : String
  name : String
  deriving DecidableEq, Repr

/-- Modelled from the spec: `Application::new` stores its arguments. -/
def Application.new (id name : String) : Application :=
  ⟨id, name⟩

/-- Modelled from the spec: `UProgram` is a tagged sum over
`{Library, Application}`. -/
inductive UProgram where
  | library (l : Library)
  | application (a : Application)
  deriving DecidableEq, Repr

/-- The `id` carried by a `UProgram`, whichever the variant. -/
def UProgram.uid : UProgram → String
  | .library l => l.id
  | .application a => a.id

/-- The `name` carried by a `UProgram`, whichever the variant. -/
def UProgram.uname : UProgram → String
  | .library l => l.name
  | .application a => a.name

/-- `parse_crate_name` (info.rs:84): read and parse the manifest, then fetch
`package.name` as a string; any failure is an `Err` (never a panic).  The
file read plus `content.parse::<Value>()` pair is modelled by the
`Option Toml` argument: `none` when the file is unreadable or not valid
TOML, `some v` for the parsed document. -/
def parse_crate_name (parsed : Option Toml) : Except String String :=
  match parsed with
  | none => .error "read or TOML parse failure"
  | some v =>
    match (v.get "package").bind (fun p => p.get "name") |>.bind Toml.asStr with
    | none => .error "Failed to find package name"
    | some n => .ok n

/-- The `for target in &package.targets` loop of `is_crate_lib`
(info.rs:109): returns `false` as soon as one target's kind list contains
`"bin"`, `true` after the loop. -/
def is_crate_lib_loop : List (List String) → Bool
  | [] => true
  | kinds :: rest => if kinds.contains "bin" then false else is_crate_lib_loop rest

/-- `is_crate_lib` (info.rs:99): the external `cargo metadata` invocation is
modelled by its answer `md`: `Except.error` when the metadata command fails
(mapped to `Err`), otherwise the root package's targets, each target being
its list of kind strings; `metadata.root_package()` returning `None` hits
the source's `.unwrap()` and panics. -/
def is_crate_lib (md : Except String (Option (List (List String)))) : RustResult Bool :=
  match md with
  | .error e => .error e
  | .ok none => .panicked
  | .ok (some targets) => .ok (is_crate_lib_loop targets)

/-- `from_cargo_toml` (info.rs:131): build a `Program` from the parsed
manifest.  `parsed["package"]` and `parsed["package"]["name"]` use
`toml::Value`'s panicking `Index` (panic on a missing key);
`.get("decription")` (the literal key in the source) falls back to an empty
string; `parsed["package"]["version"]` again panics when the key is
missing. -/
def from_cargo_toml (parsed : Option Toml) (id : String) : RustResult Program :=
  match parsed with
  | none => .error "read or TOML parse failure"
  | some v =>
    match v.get "package" with
    | none => .panicked
    | some pkg =>
      match pkg.get "name" with
      | none => .panicked
      | some nameV =>
        let name := (nameV.asStr).getD ""
        let description := ((pkg.get "decription").getD (.str "")).asStr
        match pkg.get "version" with
        | none => .panicked
        | some verV =>
          .ok (Program.new id name description none (verV.asStr) none none none)

/-- One entry yielded by the `WalkDir` traversal of the repository, in
traversal order.  `path` is the entry's path relative to the repository
root, one segment per component (so `path.length` is the `WalkDir` depth);
`isFile` distinguishes plain files from directories; `parsed` is the result
of reading the entry and parsing it as TOML (`none` for directories,
unreadable files and invalid TOML). -/
structure FsEntry where
  path : List String
  isFile : Bool
  parsed : Option Toml

/-- The repository root: the walk entries in traversal order. -/
structure RepoFs where
  entries : List FsEntry

/-- `exists_cargo_toml` (info.rs:78): `root.join("Cargo.toml").is_file()`. -/
def exists_cargo_toml (fs : RepoFs) : Bool :=
  fs.entries.any (fun e => e.path = ["Cargo.toml"] && e.isFile)

/-- The `(min_depth, max_depth)` choice of `extract_info_local`
(info.rs:24): `(1, 2)` when a `Cargo.toml` file exists directly at the
root, `(2, 3)` otherwise. -/
def depthWindow (fs : RepoFs) : Nat × Nat :=
  if exists_cargo_toml fs then (1, 2) else (2, 3)

/-- Whether a walk entry survives `WalkDir`'s depth bounds and the
`file_name == "Cargo.toml"` test (info.rs:31,40). -/
def isManifestEntry (mn mx : Nat) (e : FsEntry) : Bool :=
  mn ≤ e.path.length && e.path.length ≤ mx && e.path.getLast? = some "Cargo.toml"

/-- The directory of a manifest entry, as handed to `is_crate_lib`
(info.rs:44 strips the trailing `Cargo.toml` from the path). -/
def manifestDir (e : FsEntry) : List String :=
  e.path.dropLast

/-- The per-entry body of `extract_info_local`'s walk loop (info.rs:40):
a `parse_crate_name` failure is logged and the entry skipped; an
`is_crate_lib` `Err` is logged and the entry skipped; a panic inside
`is_crate_lib` aborts the batch; `from_cargo_toml(entry_path, &id).unwrap()`
panics on `Err` and propagates panics; on success one
`(Program, UProgram)` pair is pushed, the `UProgram` variant chosen by the
classifier verdict. -/
def extractLoop (provider : List String → Except String (Option (List (List String))))
    (id : String) (mn mx : Nat) : List FsEntry → RustResult (List (Program × UProgram))
  | [] => .ok []
  | e :: rest =>
    if isManifestEntry mn mx e then
      match parse_crate_name e.parsed with
      | .error _ => extractLoop provider id mn mx rest
      | .ok name =>
        match is_crate_lib (provider (manifestDir e)) with
        | .error _ => extractLoop provider id mn mx rest
        | .panicked => .panicked
        | .ok islib =>
          match from_cargo_toml e.parsed id with
          | .error _ => .panicked
          | .panicked => .panicked
          | .ok program =>
            let uprogram :=
              if islib then UProgram.library (Library.new id name (-1) none)
              else UProgram.application (Application.new id name)
            match extractLoop provider id mn mx rest with
            | .panicked => .panicked
            | .error m => .error m
            | .ok tail => .ok ((program, uprogram) :: tail)
  else extractLoop provider id mn mx rest

/-- `extract_info_local` (info.rs:16): pick the depth window from the
presence of a root manifest, then walk the entries accumulating one pair
per successfully processed manifest.  The run id (a UUID in the source) and
the build-metadata provider are explicit parameters. -/
def extract_info_local (fs : RepoFs)
    (provider : List String → Except String (Option (List (List String))))
    (id : String) : RustResult (List (Program × UProgram)) :=
  let w := depthWindow fs
  extractLoop provider id w.1 w.2 fs.entries

/-- Split a character list at the first occurrence of `sep`: the part
before it and the part after it, or `none` when `sep` does not occur. -/
def breakOnSep (sep : List Char) : List Char → Option (List Char × List Char)
  | [] => none
  | c :: rest =>
    if sep.isPrefixOf (c :: rest) then some ([], (c :: rest).drop sep.length)
    else match breakOnSep sep rest with
      | none => none
      | some (pre, post) => some (c :: pre, post)

/-- Remove every leftmost, non-overlapping occurrence of `pat` (structured
on a fuel argument so the definition reduces in the kernel; fuel equal to
the input length suffices for a nonempty pattern). -/
def removeAllFuel (pat : List Char) : Nat → List Char → List Char
  | 0, xs => xs
  | _ + 1, [] => []
  | fuel + 1, c :: rest =>
    if pat.isPrefixOf (c :: rest) then removeAllFuel pat fuel ((c :: rest).drop pat.length)
    else c :: removeAllFuel pat fuel rest

/-- Model of Rust's `str::replace(pat, "")` for a nonempty pattern: every
leftmost, non-overlapping occurrence of `pat` is removed (the single call
site replaces with the empty string, so only that case is modelled). -/
def str_replace_empty (s pat : String) : String :=
  String.mk (removeAllFuel pat.toList s.toList.length s.toList)

/-- Model of Rust's `str::ends_with`. -/
def str_ends_with (s suf : String) : Bool :=
  suf.toList.isSuffixOf s.toList

/-- `remove_dot_git_suffix` (info.rs:238): when the input ends with
`".git"`, `str::replace(".git", "")` removes EVERY occurrence of `".git"`
(Rust's `replace` is replace-all); otherwise the input is returned
unchanged. -/
def remove_dot_git_suffix (input : String) : String :=
  if str_ends_with input ".git" then str_replace_empty input ".git" else input

/-- Split a character list on a separator character (every occurrence). -/
def splitChar (sep : Char) : List Char → List (List Char)
  | [] => [[]]
  | c :: rest =>
    match splitChar sep rest with
    | [] => [[]]
    | g :: gs => if c = sep then [] :: g :: gs else (c :: g) :: gs

/-- Model of `url::Url::parse` followed by `path_segments()` for the
hierarchical `scheme://host/...` URLs this utility receives: returns the
path segments, or `none` when the string is not such a URL (no
`scheme://`, empty scheme or empty host).  A URL whose path is empty
normalises to the single segment `""`, as the `url` crate does. -/
def urlPathSegments (s : String) : Option (List String) :=
  match breakOnSep "://".toList s.toList with
  | none => none
  | some (scheme, rest) =>
    if scheme = [] then none
    else
      match splitChar '/' rest with
      | [] => none
      | host :: segs =>
        if host = [] then none
        else some (if segs = [] then [""] else segs.map String.mk)

/-- `extract_namespace` (info.rs:236): parse the URL, require at least two
path segments, join the last two with `/`, and run
`remove_dot_git_suffix` on the joined string. -/
def extract_namespace (url_str : String) : Except String String :=
  match urlPathSegments url_str with
  | none => .error ("Failed to parse URL " ++ url_str)
  | some segments =>
    if h : segments.length < 2 then
      .error (url_str ++ " does not include a namespace and a repository name")
    else
      let ns := segments.get ⟨segments.length - 2, by omega⟩ ++ "/" ++
        segments.get ⟨segments.length - 1, by omega⟩
      .ok (remove_dot_git_suffix ns)

/-- Model of a `serde_json::Value`. -/
inductive Json where
  | null
  | bool (b : Bool)
  | num (n : Int)
  | str (s : String)
  | arr (xs : List Json)
  | obj (kvs : List (String × Json))
  deriving Repr

mutual

/-- `serde_json::Value::to_string` (compact form; string escaping beyond the
surrounding quotes is not exercised by this pipeline and is not modelled). -/
def Json.render : Json → String
  | .null => "null"
  | .bool b => if b then "true" else "false"
  | .num n => toString n
  | .str s => "\"" ++ s ++ "\""
  | .arr xs => "[" ++ Json.renderList xs ++ "]"
  | .obj kvs => "\x7b" ++ Json.renderObj kvs ++ "\x7d"

/-- Comma-separated rendering of an array's elements. -/
def Json.renderList : List Json → String
  | [] => ""
  | [v] => Json.render v
  | v :: rest => Json.render v ++ "," ++ Json.renderList rest

/-- Comma-separated rendering of an object's entries. -/
def Json.renderObj : List (String × Json) → String
  | [] => ""
  | [(k, v)] => "\"" ++ k ++ "\":" ++ Json.render v
  | (k, v) :: rest => "\"" ++ k ++ "\":" ++ Json.render v ++ "," ++ Json.renderObj rest

end

/-- `str::trim_matches('"')`: strip every leading and trailing double-quote
character. -/
def trimQuotes (s : String) : String :=
  String.mk (((s.toList.dropWhile (fun c => c = '"')).reverse.dropWhile
    (fun c => c = '"')).reverse)

/-- The match inside `get_fields`'s map (info.rs:169): a JSON string is used
verbatim; every other value goes through `to_string` and
`trim_matches('"')`. -/
def renderField : Json → String
  | .str s => s
  | v => trimQuotes (Json.render v)

/-- `get_fields` (info.rs:162): serialize the record to JSON (here the
serialized `Json` value is the argument); when it is an object, render its
values in map order, otherwise return the empty field list. -/
def get_fields (j : Json) : List String :=
  match j with
  | .obj kvs => kvs.map (fun kv => renderField kv.2)
  | _ => []

/-- `write_to_csv` (info.rs:209), with the output file modelled as its list
of rows: append mode adds one row at the end; non-append mode truncates the
file and writes the single row. -/
def write_to_csv (data : List String) (file : List (List String)) (append : Bool) :
    List (List String) :=
  if append then file ++ [data] else [data]

/-- `write_into_csv` (info.rs:180) for a record type `T`, with serde
serialization modelled by `ser` and `T::default()` by `dflt`: when the
serialization of the default value is a JSON object, its keys are written
as the header row in truncating mode; then each record's fields are
appended. -/
def write_into_csv {T : Type} (ser : T → Json) (dflt : T) (programs : List T)
    (file0 : List (List String)) : List (List String) :=
  programs.foldl (fun f program => write_to_csv (get_fields (ser program)) f true)
    (match ser dflt with
     | .obj m => write_to_csv (m.map Prod.fst) file0 false
     | _ => file0)

/-- Serialization of an optional string field: `None` becomes JSON null. -/
def optJson : Option String → Json
  | none => .null
  | some s => .str s

/-- Modelled from the spec: the serde serialization of `Program` (the
`model` crate is outside this tree).  Every field is always emitted; absent
optional fields serialize to JSON null; the entries are in serde_json's
default map order (keys sorted), with the spec-unnamed provenance fields as
`extra1..extra3`. -/
def serializeProgram (p : Program) : Json :=
  .obj [("description", optJson p.description), ("extra1", optJson p.extra1),
        ("extra2", optJson p.extra2), ("extra3", optJson p.extra3),
        ("id", .str p.id), ("name", .str p.name),
        ("namespace", optJson p.«namespace»), ("version", optJson p.version)]

/-- The success path of one walk-loop iteration as a partial function:
`some pair` exactly when the entry's manifest parses a name, classifies,
and builds a `Program`, with `pair` the value the loop pushes. -/
def processEntry (provider : List String → Except String (Option (List (List String))))
    (id : String) (e : FsEntry) : Option (Program × UProgram) :=
  match parse_crate_name e.parsed with
  | .error _ => none
  | .ok name =>
    match is_crate_lib (provider (manifestDir e)) with
    | .error _ => none
    | .panicked => none
    | .ok islib =>
      match from_cargo_toml e.parsed id with
      | .error _ => none
      | .panicked => none
      | .ok program =>
        some (program,
          if islib then UProgram.library (Library.new id name (-1) none)
          else UProgram.application (Application.new id name))

/-- A library-style manifest for the concrete two-crate repository below. -/
def c6TomlLib : Toml :=
  .table [("package", .table [("name", .str "mylib"), ("version", .str "0.1.0")])]

/-- An application-style manifest for the concrete repository below. -/
def c6TomlApp : Toml :=
  .table [("package", .table [("name", .str "myapp"), ("version", .str "0.2.0")])]

/-- A concrete repository: a root library crate and an `app` member. -/
def c6Fs : RepoFs :=
  ⟨[⟨["Cargo.toml"], true, some c6TomlLib⟩,
    ⟨["app", "Cargo.toml"], true, some c6TomlApp⟩]⟩

/-- A concrete metadata provider: the `app` member has a `bin` target, the
root crate only a `lib` target. -/
def c6Provider : List String → Except String (Option (List (List String))) :=
  fun dir => if dir = ["app"] then .ok (some [["bin"]]) else .ok (some [["lib"]])

/-- The pair extracted for the root library crate of `c6Fs`. -/
def c6PairLib : Program × UProgram :=
  (Program.new "id0" "mylib" (some "") none (some "0.1.0") none none none,
   .library (Library.new "id0" "mylib" (-1) none))

/-- The pair extracted for the `app` member of `c6Fs`. -/
def c6PairApp : Program × UProgram :=
  (Program.new "id0" "myapp" (some "") none (some "0.2.0") none none none,
   .application (Application.new "id0" "myapp"))

/-- The full extraction result for `c6Fs`. -/
def c6Pairs : List (Program × UProgram) :=
  [c6PairLib, c6PairApp]

/-! ## Theorems -/

/-- The classifier loop answers `false` exactly when some target's kind
list contains `"bin"`. -/
theorem is_crate_lib_loop_false_iff (targets : List (List String)) :
    is_crate_lib_loop targets = false ↔ ∃ kinds ∈ targets, "bin" ∈ kinds := by
  induction targets with
  | nil => simp [is_crate_lib_loop]
  | cons k rest ih =>
    simp only [is_crate_lib_loop]
    by_cases hk : k.contains "bin"
    · rw [if_pos hk]
      exact iff_of_true rfl ⟨k, List.mem_cons_self k rest, List.elem_iff.mp hk⟩
    · rw [if_neg hk, ih]
      constructor
      · rintro ⟨kinds, hmem, hbin⟩
        exact ⟨kinds, List.mem_cons_of_mem _ hmem, hbin⟩
      · rintro ⟨kinds, hmem, hbin⟩
        rcases List.mem_cons.mp hmem with hk1 | hk2
        · exact absurd (List.elem_iff.mpr (hk1 ▸ hbin)) hk
        · exact ⟨kinds, hk2, hbin⟩

/-- C1: when the metadata provider answers with the root package's targets,
`is_crate_lib` returns `Ok false` as soon as any target's kind set contains
`"bin"` (a coexisting `"lib"` kind does not matter), and `Ok true` when no
target has a `"bin"` kind, including an empty target list. -/
theorem c1_is_crate_lib_bin_dominates (targets : List (List String)) :
    ((∃ kinds ∈ targets, "bin" ∈ kinds) →
      is_crate_lib (.ok (some targets)) = .ok false) ∧
    ((∀ kinds ∈ targets, "bin" ∉ kinds) →
      is_crate_lib (.ok (some targets)) = .ok true) := by
  constructor
  · intro hex
    simp only [is_crate_lib]
    rw [(is_crate_lib_loop_false_iff targets).mpr hex]
  · intro hall
    simp only [is_crate_lib]
    have : ¬ is_crate_lib_loop targets = false := by
      rw [is_crate_lib_loop_false_iff]
      rintro ⟨kinds, hmem, hbin⟩
      exact hall kinds hmem hbin
    rw [Bool.not_eq_false] at this
    rw [this]

/-- Witness for C1 at concrete targets: a mixed lib+bin package is
classified non-library; a lib-only package and an empty target list are
classified library. -/
theorem c1_is_crate_lib_bin_dominates_witness :
    is_crate_lib (.ok (some [["lib", "bin"]])) = .ok false ∧
    is_crate_lib (.ok (some [["lib"]])) = .ok true ∧
    is_crate_lib (.ok (some ([] : List (List String)))) = .ok true :=
  ⟨(c1_is_crate_lib_bin_dominates [["lib", "bin"]]).1
      ⟨["lib", "bin"], by simp, by simp⟩,
   (c1_is_crate_lib_bin_dominates [["lib"]]).2 (by simp),
   (c1_is_crate_lib_bin_dominates []).2 (by simp)⟩

/-- C7: the walk's depth window is `(1, 2)` when a `Cargo.toml` file exists
directly at the repository root and `(2, 3)` when it does not. -/
theorem c7_depth_window (fs : RepoFs) :
    (exists_cargo_toml fs = true → depthWindow fs = (1, 2)) ∧
    (exists_cargo_toml fs = false → depthWindow fs = (2, 3)) := by
  constructor <;> intro h <;> simp [depthWindow, h]

/-- Witness for C7: a repository with a root manifest gets window `(1, 2)`;
one whose only manifest sits at `owner/proj/Cargo.toml` gets `(2, 3)`. -/
theorem c7_depth_window_witness :
    depthWindow ⟨[⟨["Cargo.toml"], true, none⟩]⟩ = (1, 2) ∧
    depthWindow ⟨[⟨["owner", "proj", "Cargo.toml"], true, none⟩]⟩ = (2, 3) :=
  ⟨(c7_depth_window _).1 (by rfl), (c7_depth_window _).2 (by rfl)⟩

/-- C3 (code bug): a readable, valid-TOML manifest that declares
`package.name` but no `package.version` makes `from_cargo_toml` panic
(`toml::Value`'s `Index` panics on the missing `"version"` key) instead of
returning a `Program` with an absent version; with a version present and
the description missing, it does succeed with `description = Some("")` and
the declared version. -/
theorem c3_missing_version_panics :
    from_cargo_toml (some (.table [("package", .table [("name", .str "foo")])]))
      "run-id" = .panicked ∧
    from_cargo_toml (some (.table [("package",
        .table [("name", .str "foo"), ("version", .str "1.0.0")])])) "run-id"
      = .ok (Program.new "run-id" "foo" (some "") none (some "1.0.0") none none none) := by
  exact ⟨rfl, rfl⟩

/-- C2 (code bug): the batch is NOT always isolated from per-manifest
failures.  First conjunct: a repository whose single manifest declares a
name but no version makes `extract_info_local` panic (the
`from_cargo_toml(...).unwrap()` at info.rs:58 meets the panicking
`"version"` index) once the metadata provider accepts the manifest, so the
batch aborts instead of completing.  Second conjunct: the isolation
scenario the claim cites does hold — one invalid-syntax manifest plus one
fully valid manifest yields exactly one pair. -/
theorem c2_batch_panic_and_isolation :
    extract_info_local
        ⟨[⟨["Cargo.toml"], true,
            some (.table [("package", .table [("name", .str "a")])])⟩]⟩
        (fun _ => .ok (some [["lib"]])) "id0" = .panicked ∧
    extract_info_local
        ⟨[⟨["Cargo.toml"], true, none⟩,
          ⟨["member", "Cargo.toml"], true,
            some (.table [("package",
              .table [("name", .str "good"), ("version", .str "0.1.0")])])⟩]⟩
        (fun _ => .ok (some [["lib"]])) "id0"
      = .ok [(Program.new "id0" "good" (some "") none (some "0.1.0") none none none,
              .library (Library.new "id0" "good" (-1) none))] := by
  exact ⟨rfl, rfl⟩

/-- C4: the description lookup reads the literal key `"decription"`.  For
any package table without a `"decription"` key — whatever it stores under
the standard `"description"` key — a successful `from_cargo_toml` yields
`description = Some("")` (the empty-string fallback converted by
`as_str`). -/
theorem c4_decription_typo (kvs : List (String × Toml)) (id : String) (p : Program)
    (hnone : kvs.lookup "decription" = none)
    (hok : from_cargo_toml (some (.table [("package", .table kvs)])) id = .ok p) :
    p.description = some "" := by
  cases hname : kvs.lookup "name" with
  | none => simp [from_cargo_toml, Toml.get, List.lookup, hname] at hok
  | some nameV =>
    cases hver : kvs.lookup "version" with
    | none => simp [from_cargo_toml, Toml.get, List.lookup, hname, hver] at hok
    | some verV =>
      simp [from_cargo_toml, Toml.get, List.lookup, hname, hver, hnone] at hok
      rw [← hok]
      simp [Program.new, Toml.asStr]

/-- Witness for C4: a manifest whose package table stores
`description = "hello"` (standard spelling) and has no `"decription"` key
produces a `Program` whose description is the empty string — the value
under `"description"` is never extracted. -/
theorem c4_decription_typo_witness :
    ([("name", Toml.str "n"), ("description", Toml.str "hello"),
        ("version", Toml.str "1.0")].lookup "decription" = none) ∧
    from_cargo_toml (some (.table [("package",
        .table [("name", Toml.str "n"), ("description", Toml.str "hello"),
          ("version", Toml.str "1.0")])])) "id0"
      = .ok (Program.new "id0" "n" (some "") none (some "1.0") none none none) ∧
    (Program.new "id0" "n" (some "") none (some "1.0") none none none).description
      = some "" :=
  ⟨rfl, rfl,
   c4_decription_typo
     [("name", Toml.str "n"), ("description", Toml.str "hello"),
       ("version", Toml.str "1.0")] "id0" _ rfl rfl⟩

/-- C5 counterexample: the claim says only a TRAILING `".git"` is stripped
and nothing else in the joined string changes, but
`remove_dot_git_suffix` uses `str::replace(".git", "")`, which removes every
occurrence once the string ends with `".git"`: the owner segment
`"x.git.hub"` is mangled to `"x.hub"`. -/
theorem c5_counterexample_replace_all :
    extract_namespace "https://host/x.git.hub/repo.git" = .ok "x.hub/repo" ∧
    "x.hub/repo" ≠ "x.git.hub/repo" :=
  ⟨rfl, by decide⟩

/-- In `pre ++ [a, b]`, whatever the prefix, the element at index
`length - 2` is `a` and the element at index `length - 1` is `b`: the
penultimate and last elements. -/
theorem get_append_pair (pre : List String) (a b : String)
    (h1 : (pre ++ [a, b]).length - 2 < (pre ++ [a, b]).length)
    (h2 : (pre ++ [a, b]).length - 1 < (pre ++ [a, b]).length) :
    (pre ++ [a, b]).get ⟨(pre ++ [a, b]).length - 2, h1⟩ = a ∧
    (pre ++ [a, b]).get ⟨(pre ++ [a, b]).length - 1, h2⟩ = b := by
  have hlen : (pre ++ [a, b]).length = pre.length + 2 := by simp
  constructor
  · rw [List.get_eq_getElem]
    dsimp only
    rw [List.getElem_append_right (by omega)]
    have hi : (pre ++ [a, b]).length - 2 - pre.length = 0 := by omega
    simp [hi]
  · rw [List.get_eq_getElem]
    dsimp only
    rw [List.getElem_append_right (by omega)]
    have hi : (pre ++ [a, b]).length - 1 - pre.length = 1 := by omega
    simp [hi]

/-- C5 amended: for every URL whose path has at least two segments —
written `pre ++ [a, b]` with an arbitrary prefix `pre` — the utility joins
the LAST two segments `a` and `b` as `a/b`; it errors on a string the URL
parser rejects and on a path with fewer than two segments; but when the
joined string ends with `".git"`, EVERY occurrence of `".git"` in it is
removed (replace-all), not only the trailing suffix.  The three cited
examples hold as given, and a three-segment URL keeps the last two. -/
theorem c5_extract_namespace_amended :
    extract_namespace "https://www.github.com/tokio-rs/tokio" = .ok "tokio-rs/tokio" ∧
    extract_namespace "https://host/owner/repo.git" = .ok "owner/repo" ∧
    extract_namespace "https://host/a/b/c" = .ok "b/c" ∧
    extract_namespace "https://host/onlyone"
      = .error "https://host/onlyone does not include a namespace and a repository name" ∧
    extract_namespace "not a url" = .error "Failed to parse URL not a url" ∧
    (∀ s pre a b, urlPathSegments s = some (pre ++ [a, b]) →
      extract_namespace s = .ok (remove_dot_git_suffix (a ++ "/" ++ b))) ∧
    (∀ s, urlPathSegments s = none →
      extract_namespace s = .error ("Failed to parse URL " ++ s)) ∧
    (∀ s segments, urlPathSegments s = some segments → segments.length < 2 →
      extract_namespace s
        = .error (s ++ " does not include a namespace and a repository name")) ∧
    (∀ t, str_ends_with t ".git" = true →
      remove_dot_git_suffix t = str_replace_empty t ".git") ∧
    (∀ t, str_ends_with t ".git" = false → remove_dot_git_suffix t = t) := by
  refine ⟨rfl, rfl, rfl, rfl, rfl, ?_, ?_, ?_, ?_, ?_⟩
  · intro s pre a b h
    unfold extract_namespace
    rw [h]
    have hlen : (pre ++ [a, b]).length = pre.length + 2 := by simp
    dsimp only
    rw [dif_neg (by omega)]
    have hp := get_append_pair pre a b (by omega) (by omega)
    rw [hp.1, hp.2]
  · intro s h
    unfold extract_namespace
    rw [h]
  · intro s segments h hlt
    unfold extract_namespace
    rw [h]
    dsimp only
    rw [dif_pos hlt]
  · intro t h
    unfold remove_dot_git_suffix
    rw [if_pos h]
  · intro t h
    unfold remove_dot_git_suffix
    rw [if_neg (by simp [h])]

/-- Witness for C5 (amended): the last-two clause applied at a
three-segment URL with a nontrivial prefix (`grp`), the two error clauses
at concrete inputs, and the replace-all clause at a concrete string with
an inner `".git"`. -/
theorem c5_extract_namespace_amended_witness :
    extract_namespace "https://host/grp/sub/repo.git"
      = .ok (remove_dot_git_suffix ("sub" ++ "/" ++ "repo.git")) ∧
    extract_namespace "plainstring" = .error ("Failed to parse URL " ++ "plainstring") ∧
    extract_namespace "https://host/single"
      = .error ("https://host/single" ++ " does not include a namespace and a repository name") ∧
    remove_dot_git_suffix "x.git.hub/repo.git"
      = str_replace_empty "x.git.hub/repo.git" ".git" :=
  ⟨c5_extract_namespace_amended.2.2.2.2.2.1 "https://host/grp/sub/repo.git"
      ["grp"] "sub" "repo.git" rfl,
   c5_extract_namespace_amended.2.2.2.2.2.2.1 "plainstring" rfl,
   c5_extract_namespace_amended.2.2.2.2.2.2.2.1 "https://host/single" ["single"] rfl
     (by decide),
   c5_extract_namespace_amended.2.2.2.2.2.2.2.2.1 "x.git.hub/repo.git" rfl⟩

/-- Appending rows one by one with `write_to_csv` in append mode is list
append. -/
theorem foldl_write_append {T : Type} (g : T → List String) (l : List T)
    (f0 : List (List String)) :
    l.foldl (fun f r => write_to_csv (g r) f true) f0 = f0 ++ l.map g := by
  induction l generalizing f0 with
  | nil => simp
  | cons a t ih =>
    rw [List.foldl_cons, ih]
    simp [write_to_csv]

/-- C9: in a data row, a JSON-null field (an absent optional value such as
a missing `version`) is rendered as the literal text `"null"` — not as an
empty field; string fields are emitted verbatim; other scalar values go
through `to_string` with surrounding double quotes trimmed.  The final
conjunct evaluates a `Program` with no description, namespace, version or
provenance fields: every absent field renders as `"null"`. -/
theorem c9_null_rendering :
    (∀ kvs, get_fields (Json.obj kvs) = kvs.map (fun kv => renderField kv.2)) ∧
    renderField Json.null = "null" ∧
    renderField Json.null ≠ "" ∧
    (∀ s, renderField (Json.str s) = s) ∧
    (∀ n, renderField (Json.num n) = trimQuotes (Json.render (Json.num n))) ∧
    (∀ b, renderField (Json.bool b) = trimQuotes (Json.render (Json.bool b))) ∧
    get_fields (serializeProgram (Program.new "id0" "nm" none none none none none none))
      = ["null", "null", "null", "null", "id0", "nm", "null", "null"] := by
  exact ⟨fun kvs => rfl, rfl, by decide, fun s => rfl, fun n => rfl, fun b => rfl, rfl⟩

/-- C10: when the serialization of `T::default()` is not a JSON object, no
header row is written and the destination is never truncated: the data
rows are appended after whatever rows the file already contained. -/
theorem c10_no_header_no_truncation {T : Type} (ser : T → Json) (dflt : T)
    (programs : List T) (file0 : List (List String))
    (h : ∀ kvs, ser dflt ≠ Json.obj kvs) :
    write_into_csv ser dflt programs file0
      = file0 ++ programs.map (fun r => get_fields (ser r)) := by
  unfold write_into_csv
  have hd : (match ser dflt with
      | Json.obj m => write_to_csv (m.map Prod.fst) file0 false
      | _ => file0) = file0 := by
    cases hs : ser dflt
    case obj m => exact absurd hs (h m)
    all_goals rfl
  rw [hd, foldl_write_append]

/-- Witness for C10: a record type whose default serializes to a JSON
number: the pre-existing row survives and the one record contributes one
(empty) data row. -/
theorem c10_no_header_no_truncation_witness :
    write_into_csv (fun j => j) (Json.num 0) [Json.num 1] [["old"]] = [["old"], []] := by
  have h := c10_no_header_no_truncation (fun j => j) (Json.num 0) [Json.num 1] [["old"]]
    (fun kvs hk => Json.noConfusion hk)
  simpa using h

/-- C8: for a record type whose default serializes to a JSON object (every
record struct of this pipeline), writing N records produces exactly one
header row followed by the N data rows, whatever the file held before (the
header write truncates; each row is appended); and for a record whose
serialized object lists the same keys in the same order as the header, the
data row is that object's values rendered in key order, with the same
length as the header. -/
theorem c8_header_then_rows {T : Type} (ser : T → Json) (dflt : T)
    (programs : List T) (file0 : List (List String)) (m : List (String × Json))
    (hd : ser dflt = Json.obj m) :
    write_into_csv ser dflt programs file0
      = (m.map Prod.fst) :: programs.map (fun r => get_fields (ser r)) ∧
    (programs.map (fun r => get_fields (ser r))).length = programs.length ∧
    (∀ r ∈ programs, ∀ kvs, ser r = Json.obj kvs →
      kvs.map Prod.fst = m.map Prod.fst →
      get_fields (ser r) = kvs.map (fun kv => renderField kv.2) ∧
      (get_fields (ser r)).length = (m.map Prod.fst).length) := by
  refine ⟨?_, by simp, ?_⟩
  · unfold write_into_csv
    rw [hd, foldl_write_append]
    simp [write_to_csv]
  · intro r _ kvs hk hkeys
    constructor
    · rw [hk]
      rfl
    · rw [hk]
      have hlen : kvs.length = m.length := by
        simpa using congrArg List.length hkeys
      simp [get_fields, hlen]

/-- Witness for C8: one record, a one-field object type: the file holding
junk beforehand ends up as exactly the header row and one data row. -/
theorem c8_header_then_rows_witness :
    write_into_csv (fun j => j) (Json.obj [("a", Json.null)])
      [Json.obj [("a", Json.num 1)]] [["junk"]] = [["a"], ["1"]] := by
  have h := (c8_header_then_rows (fun j => j) (Json.obj [("a", Json.null)])
    [Json.obj [("a", Json.num 1)]] [["junk"]] [("a", Json.null)] rfl).1
  exact h.trans (by decide)

/-- A successful `from_cargo_toml` reuses the run id verbatim, and its
`name` agrees with the name `parse_crate_name` extracted from the same
document. -/
theorem from_cargo_toml_fields (parsed : Option Toml) (id name : String) (p : Program)
    (hn : parse_crate_name parsed = .ok name)
    (hp : from_cargo_toml parsed id = .ok p) :
    p.id = id ∧ p.name = name := by
  cases parsed with
  | none => simp [parse_crate_name] at hn
  | some v =>
    cases hpkg : v.get "package" with
    | none => simp [from_cargo_toml, hpkg] at hp
    | some pkg =>
      cases hname : pkg.get "name" with
      | none => simp [from_cargo_toml, hpkg, hname] at hp
      | some nameV =>
        cases hver : pkg.get "version" with
        | none => simp [from_cargo_toml, hpkg, hname, hver] at hp
        | some verV =>
          simp [from_cargo_toml, hpkg, hname, hver] at hp
          simp [parse_crate_name, hpkg, hname] at hn
          cases hstr : nameV.asStr with
          | none => simp [hstr] at hn
          | some s =>
            simp [hstr] at hn
            rw [← hp]
            simp [Program.new, hstr, hn]

/-- Inversion of `processEntry`: a produced pair comes from a parsed name,
a classifier verdict and a built `Program`, and the `UProgram` is the
variant the verdict selects. -/
theorem processEntry_eq_some
    (provider : List String → Except String (Option (List (List String))))
    (id : String) (e : FsEntry) (p : Program) (u : UProgram)
    (h : processEntry provider id e = some (p, u)) :
    ∃ name islib, parse_crate_name e.parsed = .ok name ∧
      is_crate_lib (provider (manifestDir e)) = .ok islib ∧
      from_cargo_toml e.parsed id = .ok p ∧
      u = (if islib then UProgram.library (Library.new id name (-1) none)
           else UProgram.application (Application.new id name)) := by
  cases hn : parse_crate_name e.parsed with
  | error m => simp [processEntry, hn] at h
  | ok name =>
    cases hc : is_crate_lib (provider (manifestDir e)) with
    | panicked => simp [processEntry, hn, hc] at h
    | error m => simp [processEntry, hn, hc] at h
    | ok islib =>
      cases hf : from_cargo_toml e.parsed id with
      | panicked => simp [processEntry, hn, hc, hf] at h
      | error m => simp [processEntry, hn, hc, hf] at h
      | ok program =>
        simp [processEntry, hn, hc, hf] at h
        obtain ⟨h1, h2⟩ := h
        subst h1
        exact ⟨name, islib, rfl, rfl, rfl, h2.symm⟩

/-- The walk loop, when it completes without a panic, returns exactly the
pairs of the manifest entries whose processing succeeds, in traversal
order. -/
theorem extractLoop_ok_eq
    (provider : List String → Except String (Option (List (List String))))
    (id : String) (mn mx : Nat) (entries : List FsEntry)
    (pairs : List (Program × UProgram))
    (h : extractLoop provider id mn mx entries = .ok pairs) :
    pairs = (entries.filter (isManifestEntry mn mx)).filterMap
      (processEntry provider id) := by
  induction entries generalizing pairs with
  | nil =>
    simp [extractLoop] at h
    simp [← h]
  | cons e rest ih =>
    by_cases hm : isManifestEntry mn mx e
    · rw [List.filter_cons_of_pos hm, List.filterMap_cons]
      cases hn : parse_crate_name e.parsed with
      | error m =>
        simp only [extractLoop, hm, if_true, hn] at h
        simp [processEntry, hn]
        exact ih _ h
      | ok name =>
        cases hc : is_crate_lib (provider (manifestDir e)) with
        | panicked =>
          simp only [extractLoop, hm, if_true, hn, hc] at h
          exact RustResult.noConfusion h
        | error m =>
          simp only [extractLoop, hm, if_true, hn, hc] at h
          simp [processEntry, hn, hc]
          exact ih _ h
        | ok islib =>
          cases hf : from_cargo_toml e.parsed id with
          | panicked =>
            simp only [extractLoop, hm, if_true, hn, hc, hf] at h
            exact RustResult.noConfusion h
          | error m =>
            simp only [extractLoop, hm, if_true, hn, hc, hf] at h
            exact RustResult.noConfusion h
          | ok program =>
            simp only [extractLoop, hm, if_true, hn, hc, hf] at h
            cases hrest : extractLoop provider id mn mx rest with
            | panicked => rw [hrest] at h; simp at h
            | error m => rw [hrest] at h; simp at h
            | ok tail =>
              rw [hrest] at h
              simp at h
              rw [← h]
              simp [processEntry, hn, hc, hf]
              exact ih _ hrest
    · rw [List.filter_cons_of_neg hm]
      simp only [extractLoop, hm, if_false] at h
      exact ih _ h

/-- C6: whenever the batch completes, it returns exactly one pair per
successfully processed manifest entry, in traversal order (the `filterMap`
characterization); and every returned pair carries the run id on both
sides, the same package name on both sides, and a `UProgram` variant
agreeing with the classifier verdict for its manifest directory — `true`
gives `Library` with counter `-1` and no auxiliary field, `false` gives
`Application`. -/
theorem c6_pair_invariants (fs : RepoFs)
    (provider : List String → Except String (Option (List (List String))))
    (id : String) (pairs : List (Program × UProgram))
    (h : extract_info_local fs provider id = .ok pairs) :
    pairs = (fs.entries.filter
        (isManifestEntry (depthWindow fs).1 (depthWindow fs).2)).filterMap
      (processEntry provider id) ∧
    (∀ p u, (p, u) ∈ pairs → p.id = id ∧ u.uid = id ∧ u.uname = p.name ∧
      (∃ islib dir, is_crate_lib (provider dir) = .ok islib ∧
        ((islib = true ∧ u = UProgram.library (Library.new id p.name (-1) none)) ∨
         (islib = false ∧ u = UProgram.application (Application.new id p.name))))) := by
  have h1 := extractLoop_ok_eq provider id (depthWindow fs).1 (depthWindow fs).2
    fs.entries pairs h
  refine ⟨h1, ?_⟩
  intro p u hmem
  rw [h1] at hmem
  obtain ⟨e, he, hpe⟩ := List.mem_filterMap.mp hmem
  obtain ⟨name, islib, hn, hc, hf, hu⟩ := processEntry_eq_some provider id e p u hpe
  obtain ⟨hid, hname⟩ := from_cargo_toml_fields e.parsed id name p hn hf
  refine ⟨hid, ?_, ?_, islib, manifestDir e, hc, ?_⟩
  · cases islib <;>
      simp [hu, UProgram.uid, Library.new, Application.new]
  · cases islib <;>
      simp [hu, UProgram.uname, Library.new, Application.new, hname]
  · cases islib
    · exact Or.inr ⟨rfl, by simp [hu, hname]⟩
    · exact Or.inl ⟨rfl, by simp [hu, hname]⟩

/-- Witness for C6: the two-crate repository `c6Fs` extracts exactly the
two expected pairs (library for the root, application for `app`), and the
library pair satisfies every per-pair invariant. -/
theorem c6_pair_invariants_witness :
    (c6Pairs = (c6Fs.entries.filter
        (isManifestEntry (depthWindow c6Fs).1 (depthWindow c6Fs).2)).filterMap
      (processEntry c6Provider "id0")) ∧
    ((c6PairLib.1).id = "id0" ∧ (c6PairLib.2).uid = "id0" ∧
      (c6PairLib.2).uname = (c6PairLib.1).name ∧
      (∃ islib dir, is_crate_lib (c6Provider dir) = .ok islib ∧
        ((islib = true ∧
            c6PairLib.2 = UProgram.library (Library.new "id0" (c6PairLib.1).name (-1) none)) ∨
         (islib = false ∧
            c6PairLib.2 = UProgram.application (Application.new "id0" (c6PairLib.1).name))))) :=
  ⟨(c6_pair_invariants c6Fs c6Provider "id0" c6Pairs rfl).1,
   (c6_pair_invariants c6Fs c6Provider "id0" c6Pairs rfl).2 c6PairLib.1 c6PairLib.2
     (by decide)⟩

end RepoImport
